import Mathlib

/-!
Verification of the staged dynamic-query pattern of the query-cookbook
repository (Convex example app).

The repository builds database queries in stages, mirrored here by a small
query AST:

* Stage 1 (table selection) is implicit: every query below is over one table.
* Stage 2 (index selection): `IdxQuery` is the shallow embedding of the
  platform's `Query` type: either the default full scan, a `withIndex`
  equality constraint (which the code always applies to the *table* handle,
  so the constructor takes no inner query), or a `filter` applied at this
  stage (used by one variant of `listUsers`).
* Stage 3 (order selection): `OrdQuery` embeds `OrderedQuery`: the default
  ascending order over an `IdxQuery`, an explicit `order` call over an
  `IdxQuery`, a `withSearchIndex` call (which the code always applies to the
  table handle and which fixes both index and order), or a post-`filter`.
* Stage 5 (materialization) is `List.take` on the evaluated sequence.

A database table is modelled as the list of its documents in ascending
`_creationTime` order (the platform's default scan order); `order "desc"`
is list reversal, `withIndex` with an equality constraint keeps the
creation-time order of the matching documents, and the platform's opaque
text-search ranking is a parameter `rank` (query string → field value →
optional relevance; `none` means the document does not match).
-/

/-- A single call against the storage collaborator's query-builder API,
used to record the trace of builder calls a handler performs. -/
inductive BuilderCall where
  | query (table : String)
  | withIndex (index : String)
  | withSearchIndex (index : String)
  | order (desc : Bool)
  | filter
  | take (n : Nat)
deriving Repr, DecidableEq

/-- Embedding of the platform's `Query` type (index selected, no order):
`ι` is the type of index constraints of the table, `π` the type of filter
predicates. `withIndex` takes no inner query because the API only offers it
on the table handle (`QueryInitializer`). -/
inductive IdxQuery (ι : Type) (π : Type) where
  | default : IdxQuery ι π
  | withIndex (idx : ι) : IdxQuery ι π
  | filter (q : IdxQuery ι π) (p : π) : IdxQuery ι π
deriving Repr, DecidableEq

/-- Embedding of the platform's `OrderedQuery` type (index and order
selected): `σ` is the type of search-index constraints. `order` and
`withSearchIndex` take the handle the source code passes them: an indexed
query and the table handle respectively. -/
inductive OrdQuery (ι : Type) (σ : Type) (π : Type) where
  | default (q : IdxQuery ι π) : OrdQuery ι σ π
  | order (q : IdxQuery ι π) (desc : Bool) : OrdQuery ι σ π
  | search (s : σ) : OrdQuery ι σ π
  | filter (q : OrdQuery ι σ π) (p : π) : OrdQuery ι σ π
deriving Repr, DecidableEq

/-- Number of `withIndex` operations composing an indexed query. -/
def IdxQuery.indexOps {ι π : Type} : IdxQuery ι π → Nat
  | IdxQuery.default => 0
  | IdxQuery.withIndex _ => 1
  | IdxQuery.filter q _ => q.indexOps

/-- Number of index-selection operations (`withIndex` or `withSearchIndex`)
composing an ordered query. -/
def OrdQuery.indexOps {ι σ π : Type} : OrdQuery ι σ π → Nat
  | OrdQuery.default q => q.indexOps
  | OrdQuery.order q _ => q.indexOps
  | OrdQuery.search _ => 1
  | OrdQuery.filter q _ => q.indexOps

/-- Number of `withIndex` operations (regular index selections only,
search selections not counted) composing an ordered query. -/
def OrdQuery.withIndexOps {ι σ π : Type} : OrdQuery ι σ π → Nat
  | OrdQuery.default q => q.indexOps
  | OrdQuery.order q _ => q.indexOps
  | OrdQuery.search _ => 0
  | OrdQuery.filter q _ => q.withIndexOps

/-- Number of order-selection operations (an explicit `order` call, or the
relevance order implied by `withSearchIndex`) composing an ordered query. -/
def OrdQuery.orderOps {ι σ π : Type} : OrdQuery ι σ π → Nat
  | OrdQuery.default _ => 0
  | OrdQuery.order _ _ => 1
  | OrdQuery.search _ => 1
  | OrdQuery.filter q _ => q.orderOps

/-- The indexed query with all stage-level filters stripped: what remains is
exactly the index selection. -/
def IdxQuery.core {ι π : Type} : IdxQuery ι π → IdxQuery ι π
  | IdxQuery.default => IdxQuery.default
  | IdxQuery.withIndex i => IdxQuery.withIndex i
  | IdxQuery.filter q _ => q.core

/-- The ordered query with all filters stripped: what remains is exactly the
index selection and order selection. -/
def OrdQuery.core {ι σ π : Type} : OrdQuery ι σ π → OrdQuery ι σ π
  | OrdQuery.default q => OrdQuery.default q.core
  | OrdQuery.order q d => OrdQuery.order q.core d
  | OrdQuery.search s => OrdQuery.search s
  | OrdQuery.filter q _ => q.core

/-- The declared indexes of a table, as fixed by the schema declarations. -/
structure TableSchema where
  indexes : List String
  searchIndexes : List String
deriving Repr, DecidableEq

/-- Whether every regular index an indexed query references is declared in
the schema. -/
def IdxQuery.wf {ι π : Type} (sch : TableSchema) (iname : ι → String) :
    IdxQuery ι π → Bool
  | IdxQuery.default => true
  | IdxQuery.withIndex i => sch.indexes.contains (iname i)
  | IdxQuery.filter q _ => q.wf sch iname

/-- Whether every index an ordered query references is declared in the
schema with the right kind (regular vs search). -/
def OrdQuery.wf {ι σ π : Type} (sch : TableSchema) (iname : ι → String)
    (sname : σ → String) : OrdQuery ι σ π → Bool
  | OrdQuery.default q => q.wf sch iname
  | OrdQuery.order q _ => q.wf sch iname
  | OrdQuery.search s => sch.searchIndexes.contains (sname s)
  | OrdQuery.filter q _ => q.wf sch iname sname

/-- Insert `a` into a list sorted by strictly descending key, after all
elements with a key at least as large (stable descending insertion). -/
def insertDescBy {α : Type} (key : α → Nat) (a : α) : List α → List α
  | [] => [a]
  | b :: bs => if key b < key a then a :: b :: bs else b :: insertDescBy key a bs

/-- Stable insertion sort by descending key. -/
def sortDescBy {α : Type} (key : α → Nat) : List α → List α
  | [] => []
  | a :: as => insertDescBy key a (sortDescBy key as)

/-- Result sequence of a search-index scan: the documents the ranking
function matches, ordered by descending relevance. -/
def searchResults {α : Type} (rank : α → Option Nat) (db : List α) : List α :=
  sortDescBy (fun a => (rank a).getD 0) (db.filter (fun a => (rank a).isSome))

/-- Evaluate an indexed (unordered) query against a table, given the
interpretation of its index constraints and filter predicates. The table is
the list of documents in ascending creation-time order, which is also the
order of an equality-constrained index scan. -/
def evalIdx {α ι π : Type} (im : ι → α → Bool) (pm : π → α → Bool)
    (db : List α) : IdxQuery ι π → List α
  | IdxQuery.default => db
  | IdxQuery.withIndex i => db.filter (im i)
  | IdxQuery.filter q p => (evalIdx im pm db q).filter (pm p)

/-- Evaluate an ordered query against a table: the candidate sequence the
materialization stage draws from. -/
def evalOrd {α ι σ π : Type} (im : ι → α → Bool) (pm : π → α → Bool)
    (sm : σ → α → Option Nat) (db : List α) : OrdQuery ι σ π → List α
  | OrdQuery.default q => evalIdx im pm db q
  | OrdQuery.order q d => if d then (evalIdx im pm db q).reverse else evalIdx im pm db q
  | OrdQuery.search s => searchResults (sm s) db
  | OrdQuery.filter q p => (evalOrd im pm sm db q).filter (pm p)

/-- Failures of the storage collaborator: it is a black box, so one abstract
unavailability failure plus the validation failure it raises for a query
referencing an undeclared index. -/
inductive StorageError where
  | unavailable : StorageError
  | validation (reason : String) : StorageError
deriving Repr, DecidableEq

/-- Run a query against the storage collaborator: the platform validates the
referenced indexes against the schema, then either fails (when the storage
itself is failing) or returns the first `n` documents of the candidate
sequence. The handlers pass this result through unchanged. -/
def runQuery {α ι σ π : Type} (sch : TableSchema) (iname : ι → String)
    (sname : σ → String) (im : ι → α → Bool) (pm : π → α → Bool)
    (sm : σ → α → Option Nat) (storageFail : Option StorageError)
    (db : List α) (q : OrdQuery ι σ π) (n : Nat) : Except StorageError (List α) :=
  if q.wf sch iname sname then
    match storageFail with
    | Option.some e => Except.error e
    | Option.none => Except.ok ((evalOrd im pm sm db q).take n)
  else
    Except.error (StorageError.validation "index not declared")

/-- A `messages` document: the schema fields plus the system-assigned
identity and creation time (src/convex/schema.ts, table `messages`).
A table is a `List Message` in ascending creation-time order. -/
structure Message where
  id : Nat
  creationTime : Nat
  author : String
  conversation : String
  body : String
  hidden : Bool
deriving Repr, DecidableEq

/-- Index constraints of the `messages` table used by `listMessages`:
an equality constraint on the indexed field. -/
inductive MessagesIndex where
  | by_author (value : String)
  | by_conversation (value : String)
deriving Repr, DecidableEq

/-- Search-index constraints of the `messages` table: a search on the
`body` field of the `by_body` search index. -/
inductive MessagesSearch where
  | by_body (queryString : String)
deriving Repr, DecidableEq

/-- Filter predicates `listMessages` applies:
`q.eq(q.field("hidden"), false)`. -/
inductive MessagesPred where
  | hiddenEqFalse
deriving Repr, DecidableEq

/-- Name of a declared messages index. -/
def MessagesIndex.iname : MessagesIndex → String
  | MessagesIndex.by_author _ => "by_author"
  | MessagesIndex.by_conversation _ => "by_conversation"

/-- Name of a declared messages search index. -/
def MessagesSearch.sname : MessagesSearch → String
  | MessagesSearch.by_body _ => "by_body"

/-- The `messages` schema declaration (src/convex/schema.ts): regular
indexes `by_author` and `by_conversation`, search index `by_body`. -/
def messagesSchema : TableSchema :=
  ⟨["by_author", "by_conversation"], ["by_body"]⟩

/-- Interpretation of a messages index constraint on a document. -/
def messagesIdxMatch (i : MessagesIndex) : Message → Bool :=
  match i with
  | MessagesIndex.by_author a => fun m => m.author == a
  | MessagesIndex.by_conversation c => fun m => m.conversation == c

/-- Interpretation of a messages filter predicate on a document. -/
def messagesPredMatch (p : MessagesPred) : Message → Bool :=
  match p with
  | MessagesPred.hiddenEqFalse => fun m => m.hidden == false

/-- Interpretation of the `by_body` search constraint, given the platform's
opaque ranking `rank` (search string → body → optional relevance). -/
def messagesSearchRank (rank : String → String → Option Nat)
    (s : MessagesSearch) : Message → Option Nat :=
  match s with
  | MessagesSearch.by_body q => fun m => rank q m.body

/-- Arguments of the `listMessages` query handler. -/
structure ListMessagesArgs where
  authorFilter : Option String
  conversationFilter : Option String
  bodyFilter : Option String
  excludeHidden : Bool
  newestFirst : Bool
deriving Repr, DecidableEq

/-- Shorthand for the `messages` indexed-query stage type. -/
abbrev MIdx := IdxQuery MessagesIndex MessagesPred

/-- Shorthand for the `messages` ordered-query stage type. -/
abbrev MOrd := OrdQuery MessagesIndex MessagesSearch MessagesPred

namespace Messages

/-- Stage 2 of `listMessages`: starting from the default (unindexed) query,
apply `withIndex` on `by_author` when `authorFilter !== undefined`, then on
`by_conversation` when `conversationFilter !== undefined` (each call made on
the table handle, so a later assignment replaces the earlier index). -/
def listMessagesIndexed (args : ListMessagesArgs) : MIdx :=
  let iq0 : MIdx := IdxQuery.default
  let iq1 : MIdx :=
    match args.authorFilter with
    | Option.some a => IdxQuery.withIndex (MessagesIndex.by_author a)
    | Option.none => iq0
  let iq2 : MIdx :=
    match args.conversationFilter with
    | Option.some c => IdxQuery.withIndex (MessagesIndex.by_conversation c)
    | Option.none => iq1
  iq2

/-- Stages 3-4 of `listMessages`: default order over the stage-2 query,
replaced by `order("desc")` when `newestFirst`, replaced in turn by
`withSearchIndex("by_body", ...)` on the table handle when `bodyFilter` is
truthy (a JavaScript truthiness test: the empty string counts as absent),
then wrapped in the hidden-exclusion filter when `excludeHidden`. The result
is the query handle that `take` materializes. -/
def listMessagesOrdered (args : ListMessagesArgs) : MOrd :=
  let iq : MIdx := listMessagesIndexed args
  let oq0 : MOrd := OrdQuery.default iq
  let oq1 : MOrd := if args.newestFirst then OrdQuery.order iq true else oq0
  let oq2 : MOrd :=
    match args.bodyFilter with
    | Option.some b =>
        if b == "" then oq1 else OrdQuery.search (MessagesSearch.by_body b)
    | Option.none => oq1
  let oq3 : MOrd :=
    if args.excludeHidden then OrdQuery.filter oq2 MessagesPred.hiddenEqFalse
    else oq2
  oq3

/-- The sequence of builder-API calls the `listMessages` handler performs,
in program order, including calls whose results a later assignment
discards. -/
def listMessagesTrace (args : ListMessagesArgs) : List BuilderCall :=
  [BuilderCall.query "messages"]
  ++ (match args.authorFilter with
      | Option.some _ => [BuilderCall.withIndex "by_author"]
      | Option.none => [])
  ++ (match args.conversationFilter with
      | Option.some _ => [BuilderCall.withIndex "by_conversation"]
      | Option.none => [])
  ++ (if args.newestFirst then [BuilderCall.order true] else [])
  ++ (match args.bodyFilter with
      | Option.some b =>
          if b == "" then [] else [BuilderCall.withSearchIndex "by_body"]
      | Option.none => [])
  ++ (if args.excludeHidden then [BuilderCall.filter] else [])
  ++ [BuilderCall.take 10]

/-- The ordered candidate sequence `listMessages` materializes from:
the evaluation of the final query handle, before the `take(10)` bound. -/
def candidates (rank : String → String → Option Nat) (db : List Message)
    (args : ListMessagesArgs) : List Message :=
  evalOrd messagesIdxMatch messagesPredMatch (messagesSearchRank rank) db
    (listMessagesOrdered args)

/-- The `listMessages` query handler: the first 10 documents of the
candidate sequence (src/convex/schema.ts and the identical copy in
src/convex/users.ts). -/
def listMessages (rank : String → String → Option Nat) (db : List Message)
    (args : ListMessagesArgs) : List Message :=
  (candidates rank db args).take 10

/-- The `listMessages` handler run against the storage collaborator:
validation and failures are the collaborator's, and the handler passes the
outcome through with no handling of its own. -/
def listMessagesRun (storageFail : Option StorageError)
    (rank : String → String → Option Nat) (db : List Message)
    (args : ListMessagesArgs) : Except StorageError (List Message) :=
  runQuery messagesSchema MessagesIndex.iname MessagesSearch.sname
    messagesIdxMatch messagesPredMatch (messagesSearchRank rank)
    storageFail db (listMessagesOrdered args) 10

end Messages

/-- The `messages` table with the platform's insertion counter: the platform
assigns each inserted document a fresh identity and creation time. -/
structure MessagesTable where
  docs : List Message
  nextCreationTime : Nat
deriving Repr, DecidableEq

/-- Platform insert into the `messages` table: append a document carrying
the provided fields verbatim plus fresh system fields. -/
def MessagesTable.insert (tbl : MessagesTable) (author conversation body : String)
    (hidden : Bool) : MessagesTable :=
  ⟨tbl.docs ++ [⟨tbl.nextCreationTime, tbl.nextCreationTime, author,
                conversation, body, hidden⟩],
   tbl.nextCreationTime + 1⟩

/-- The `createMessage` mutation handler: a single unconditional insert of
the argument fields (src/convex/users.ts, `createMessage`). -/
def createMessage (tbl : MessagesTable) (author conversation body : String)
    (hidden : Bool) : MessagesTable :=
  tbl.insert author conversation body hidden

/-- Status of a user: the union of the literals "active" and "inactive". -/
inductive UserStatus where
  | active
  | inactive
deriving Repr, DecidableEq, BEq

/-- A `users` document: the schema fields plus the system-assigned identity
and creation time (users schema, src/unnamed/part_000). -/
structure User where
  id : Nat
  creationTime : Nat
  name : String
  tokenIdentifier : String
  status : UserStatus
deriving Repr, DecidableEq

/-- Index constraints of the `users` table used by the `listUsers`
variants: an equality constraint on the indexed field. -/
inductive UsersIndex where
  | by_token (value : String)
  | by_name (value : String)
deriving Repr, DecidableEq

/-- Search-index constraints the users.ts `listUsers` attempts: a search on
the `name` field of an index called `by_name`. -/
inductive UsersSearch where
  | by_name (queryString : String)
deriving Repr, DecidableEq

/-- Filter predicates the `listUsers` variants apply:
`q.eq(q.field("status"), "active")`. -/
inductive UsersPred where
  | statusEqActive
deriving Repr, DecidableEq

/-- Name of a declared users index. -/
def UsersIndex.iname : UsersIndex → String
  | UsersIndex.by_token _ => "by_token"
  | UsersIndex.by_name _ => "by_name"

/-- Name of the index the users search constraint references. -/
def UsersSearch.sname : UsersSearch → String
  | UsersSearch.by_name _ => "by_name"

/-- The `users` schema declaration (src/unnamed/part_000): regular indexes
`by_token` and `by_name`, and no search index. -/
def usersSchema : TableSchema :=
  ⟨["by_token", "by_name"], []⟩

/-- Interpretation of a users index constraint on a document. -/
def usersIdxMatch (i : UsersIndex) : User → Bool :=
  match i with
  | UsersIndex.by_token t => fun u => u.tokenIdentifier == t
  | UsersIndex.by_name n => fun u => u.name == n

/-- Interpretation of a users filter predicate on a document. -/
def usersPredMatch (p : UsersPred) : User → Bool :=
  match p with
  | UsersPred.statusEqActive => fun u => u.status == UserStatus.active

/-- Interpretation of the users search constraint, given the platform's
opaque ranking. -/
def usersSearchRank (rank : String → String → Option Nat)
    (s : UsersSearch) : User → Option Nat :=
  match s with
  | UsersSearch.by_name q => fun u => rank q u.name

/-- Arguments of the `listUsers` query handlers. -/
structure ListUsersArgs where
  name : Option String
  token : Option String
  onlyActive : Bool
  desc : Bool
deriving Repr, DecidableEq

/-- Shorthand for the `users` indexed-query stage type. -/
abbrev UIdx := IdxQuery UsersIndex UsersPred

/-- Shorthand for the `users` ordered-query stage type. -/
abbrev UOrd := OrdQuery UsersIndex UsersSearch UsersPred

namespace Users

/-- Stage 2 of `listUsers` (src/convex/users.ts): apply `withIndex` on
`by_token` when `token` is truthy (the empty string counts as absent). -/
def listUsersIndexed (args : ListUsersArgs) : UIdx :=
  let iq0 : UIdx := IdxQuery.default
  match args.token with
  | Option.some t =>
      if t == "" then iq0 else IdxQuery.withIndex (UsersIndex.by_token t)
  | Option.none => iq0

/-- Stages 3-4 of `listUsers` (src/convex/users.ts): default order over the
stage-2 query, replaced by `order("desc")` when `desc`, replaced in turn by
`withSearchIndex("by_name", ...)` on the table handle when `name` is truthy,
then wrapped in the active-only filter when `onlyActive`. -/
def listUsersOrdered (args : ListUsersArgs) : UOrd :=
  let iq : UIdx := listUsersIndexed args
  let oq0 : UOrd := OrdQuery.default iq
  let oq1 : UOrd := if args.desc then OrdQuery.order iq true else oq0
  let oq2 : UOrd :=
    match args.name with
    | Option.some n =>
        if n == "" then oq1 else OrdQuery.search (UsersSearch.by_name n)
    | Option.none => oq1
  let oq3 : UOrd :=
    if args.onlyActive then OrdQuery.filter oq2 UsersPred.statusEqActive
    else oq2
  oq3

/-- The ordered candidate sequence the users.ts `listUsers` materializes
from, before the `take(10)` bound. -/
def candidates (rank : String → String → Option Nat) (db : List User)
    (args : ListUsersArgs) : List User :=
  evalOrd usersIdxMatch usersPredMatch (usersSearchRank rank) db
    (listUsersOrdered args)

/-- The `listUsers` query handler of src/convex/users.ts. -/
def listUsers (rank : String → String → Option Nat) (db : List User)
    (args : ListUsersArgs) : List User :=
  (candidates rank db args).take 10

end Users

namespace Part001

/-- Stages 2-3 of the `listUsers` variant of src/unnamed/part_001: apply
`withIndex` on `by_name` when `name` is truthy, then on `by_token` when
`token` is truthy (each call made on the table handle, so token wins when
both are supplied), then apply the active-only filter on the indexed query
itself. -/
def listUsersIndexed (args : ListUsersArgs) : UIdx :=
  let iq0 : UIdx := IdxQuery.default
  let iq1 : UIdx :=
    match args.name with
    | Option.some n =>
        if n == "" then iq0 else IdxQuery.withIndex (UsersIndex.by_name n)
    | Option.none => iq0
  let iq2 : UIdx :=
    match args.token with
    | Option.some t =>
        if t == "" then iq1 else IdxQuery.withIndex (UsersIndex.by_token t)
    | Option.none => iq1
  let iq3 : UIdx :=
    if args.onlyActive then IdxQuery.filter iq2 UsersPred.statusEqActive
    else iq2
  iq3

/-- Ordering stage of the part_001 `listUsers` variant: `order("desc")` on
the indexed (and possibly filtered) query when `desc`, the default
ascending order otherwise. -/
def listUsersOrdered (args : ListUsersArgs) : UOrd :=
  let iq : UIdx := listUsersIndexed args
  if args.desc then OrdQuery.order iq true else OrdQuery.default iq

/-- The ordered candidate sequence of the part_001 `listUsers` variant
(no search index is ever used, so no ranking parameter is needed). -/
def candidates (db : List User) (args : ListUsersArgs) : List User :=
  evalOrd usersIdxMatch usersPredMatch (usersSearchRank fun _ _ => Option.none)
    db (listUsersOrdered args)

/-- The `listUsers` query handler variant of src/unnamed/part_001. -/
def listUsers (db : List User) (args : ListUsersArgs) : List User :=
  (candidates db args).take 10

end Part001

/-- The `users` table with the platform's insertion counter. -/
structure UsersTable where
  docs : List User
  nextCreationTime : Nat
deriving Repr, DecidableEq

/-- Platform insert into the `users` table. -/
def UsersTable.insert (tbl : UsersTable) (name tokenIdentifier : String)
    (status : UserStatus) : UsersTable :=
  ⟨tbl.docs ++ [⟨tbl.nextCreationTime, tbl.nextCreationTime, name,
                tokenIdentifier, status⟩],
   tbl.nextCreationTime + 1⟩

/-- The `createUser` mutation handler (src/convex/users.ts): a single
unconditional insert mapping the `token` argument to the `tokenIdentifier`
field. -/
def createUser (tbl : UsersTable) (name token : String)
    (status : UserStatus) : UsersTable :=
  tbl.insert name token status

/-- A ranking under which nothing matches, usable wherever no text filter is
supplied (the ranking is then irrelevant). -/
def rankNone : String → String → Option Nat := fun _ _ => Option.none

/-- Fixture message: creation time 1, author alice, visible. -/
def fxM1 : Message := ⟨1, 1, "alice", "general", "hi", false⟩

/-- Fixture message: creation time 2, author bob, visible. -/
def fxM2 : Message := ⟨2, 2, "bob", "general", "hello", false⟩

/-- Fixture message: creation time 3, author alice, hidden. -/
def fxM3 : Message := ⟨3, 3, "alice", "general", "secret", true⟩

/-- Fixture message: creation time 4, author alice, visible. -/
def fxM4 : Message := ⟨4, 4, "alice", "general", "bye", false⟩

/-- Fixture message: creation time 5, author bob, visible. -/
def fxM5 : Message := ⟨5, 5, "bob", "general", "later", false⟩

/-- Fixture table: 3 messages authored by alice of which exactly one is
hidden, and 2 authored by bob, in ascending creation-time order. -/
def fixtureC5 : List Message := [fxM1, fxM2, fxM3, fxM4, fxM5]

/-- A message of the 11-element fixture: creation time `i`, hidden when
`hid`. -/
def cMsg (i : Nat) (hid : Bool) : Message := ⟨i, i, "a", "c", "b", hid⟩

/-- Fixture table of 11 messages in which only the first is hidden. -/
def fixture11 : List Message :=
  [cMsg 0 true, cMsg 1 false, cMsg 2 false, cMsg 3 false, cMsg 4 false,
   cMsg 5 false, cMsg 6 false, cMsg 7 false, cMsg 8 false, cMsg 9 false,
   cMsg 10 false]

/-- Fixture user whose name contains but does not equal "alice". -/
def aliceSmith : User := ⟨0, 0, "alice smith", "tok0", UserStatus.active⟩

/-- A concrete possible platform ranking under which the search string
"alice" matches the name "alice smith". -/
def rankAlice : String → String → Option Nat := fun q s =>
  if q == "alice" && s == "alice smith" then Option.some 1 else Option.none

/-- Every indexed query carries at most one `withIndex` operation: the
constructor for `withIndex` starts from the table handle, as the API
dictates. -/
theorem idx_indexOps_le_one {ι π : Type} : ∀ q : IdxQuery ι π, q.indexOps ≤ 1
  | IdxQuery.default => Nat.zero_le 1
  | IdxQuery.withIndex _ => Nat.le_refl 1
  | IdxQuery.filter q _ => idx_indexOps_le_one q

/-- Every ordered query carries at most one index-selection operation. -/
theorem ord_indexOps_le_one {ι σ π : Type} : ∀ q : OrdQuery ι σ π, q.indexOps ≤ 1
  | OrdQuery.default q => idx_indexOps_le_one q
  | OrdQuery.order q _ => idx_indexOps_le_one q
  | OrdQuery.search _ => Nat.le_refl 1
  | OrdQuery.filter q _ => ord_indexOps_le_one q

/-- Every ordered query carries at most one order-selection operation. -/
theorem ord_orderOps_le_one {ι σ π : Type} : ∀ q : OrdQuery ι σ π, q.orderOps ≤ 1
  | OrdQuery.default _ => Nat.zero_le 1
  | OrdQuery.order _ _ => Nat.le_refl 1
  | OrdQuery.search _ => Nat.le_refl 1
  | OrdQuery.filter q _ => ord_orderOps_le_one q

/-- Every index `listMessages` can reference is declared in the messages
schema with the right kind, for every combination of arguments. -/
theorem listMessages_wf (args : ListMessagesArgs) :
    (Messages.listMessagesOrdered args).wf messagesSchema
      MessagesIndex.iname MessagesSearch.sname = true := by
  obtain ⟨af, cf, bf, eh, nf⟩ := args
  rcases af with _ | a <;> rcases cf with _ | c <;> rcases bf with _ | b <;>
    cases eh <;> cases nf <;>
      simp [Messages.listMessagesOrdered, Messages.listMessagesIndexed,
        OrdQuery.wf, IdxQuery.wf, MessagesIndex.iname, MessagesSearch.sname,
        messagesSchema] <;>
      split <;>
      simp [OrdQuery.wf, IdxQuery.wf, MessagesIndex.iname, MessagesSearch.sname,
        messagesSchema]

/-- Claim C1: for every combination of the optional filter arguments and
boolean flags passed to `listMessages` (and to both `listUsers` variants),
the query handle finally materialized with `take` has had at most one
index-selection operation (`withIndex` or `withSearchIndex`) and at most
one order-selection operation (`order`, or the order implied by
`withSearchIndex`) applied to it. -/
theorem claim1_single_index_single_order (margs : ListMessagesArgs)
    (uargs : ListUsersArgs) :
    ((Messages.listMessagesOrdered margs).indexOps ≤ 1
      ∧ (Messages.listMessagesOrdered margs).orderOps ≤ 1)
    ∧ ((Users.listUsersOrdered uargs).indexOps ≤ 1
      ∧ (Users.listUsersOrdered uargs).orderOps ≤ 1)
    ∧ ((Part001.listUsersOrdered uargs).indexOps ≤ 1
      ∧ (Part001.listUsersOrdered uargs).orderOps ≤ 1) :=
  ⟨⟨ord_indexOps_le_one _, ord_orderOps_le_one _⟩,
   ⟨ord_indexOps_le_one _, ord_orderOps_le_one _⟩,
   ⟨ord_indexOps_le_one _, ord_orderOps_le_one _⟩⟩

/-- Claim C3, counterexample: on a table of 11 messages whose first record
is hidden, `listMessages` with no filters, `newestFirst` false and
`excludeHidden` true does not return "the first 10 records of the table
minus the post-filtered ones": the code post-filters the whole candidate
sequence before bounding it, so the 11th record takes the hidden record's
place (10 results, not 9). -/
theorem claim3_counterexample :
    Messages.listMessages rankNone fixture11
      ⟨Option.none, Option.none, Option.none, true, false⟩
      ≠ (fixture11.take 10).filter (fun m => m.hidden == false) := by
  decide

/-- Claim C3, amended: with no filter arguments supplied and `newestFirst`
false, the result is the first 10 records of the post-filtered table
sequence in default ascending creation-time order (the post-filter is
applied before the count bound, not after). -/
theorem claim3_amended (eh : Bool) (db : List Message)
    (rank : String → String → Option Nat) :
    Messages.listMessages rank db ⟨Option.none, Option.none, Option.none, eh, false⟩
      = (if eh then db.filter (fun m => m.hidden == false) else db).take 10 := by
  cases eh <;> rfl

/-- Claim C5: on the fixture of 3 messages authored by alice (exactly one
hidden) and 2 by bob, `listMessages` with `authorFilter` alice,
`newestFirst` true and `excludeHidden` true returns exactly the two
non-hidden alice messages, newest first. -/
theorem claim5_fixture :
    (fixtureC5.filter (fun m => m.author == "alice")).length = 3
    ∧ (fixtureC5.filter (fun m => m.author == "alice" && m.hidden)).length = 1
    ∧ (fixtureC5.filter (fun m => m.author == "bob")).length = 2
    ∧ Messages.listMessages rankNone fixtureC5
        ⟨Option.some "alice", Option.none, Option.none, true, true⟩
        = [fxM4, fxM1]
    ∧ fxM4.author = "alice" ∧ fxM1.author = "alice"
    ∧ fxM4.hidden = false ∧ fxM1.hidden = false
    ∧ fxM1.creationTime < fxM4.creationTime := by
  decide

/-- Claim C9: for every input and every table state, `listMessages` and
both `listUsers` variants return at most 10 records. -/
theorem claim9_result_bound (rank urank : String → String → Option Nat)
    (db : List Message) (udb : List User)
    (margs : ListMessagesArgs) (uargs : ListUsersArgs) :
    (Messages.listMessages rank db margs).length ≤ 10
    ∧ (Users.listUsers urank udb uargs).length ≤ 10
    ∧ (Part001.listUsers udb uargs).length ≤ 10 :=
  ⟨List.length_take_le 10 _, List.length_take_le 10 _, List.length_take_le 10 _⟩

/-- Claim C10: when both `authorFilter` and `conversationFilter` are
supplied and `bodyFilter` is absent, the second stage-2 assignment wins:
the final handle is the same one built without the author filter, and the
result is exactly the conversation's messages, ordered per `newestFirst`,
post-filtered per `excludeHidden`, and bounded to 10, with no restriction
on the author. -/
theorem claim10_conversation_wins (a c : String) (eh nf : Bool)
    (db : List Message) (rank : String → String → Option Nat) :
    Messages.listMessagesOrdered ⟨Option.some a, Option.some c, Option.none, eh, nf⟩
      = Messages.listMessagesOrdered ⟨Option.none, Option.some c, Option.none, eh, nf⟩
    ∧ Messages.listMessages rank db ⟨Option.some a, Option.some c, Option.none, eh, nf⟩
      = Messages.listMessages rank db ⟨Option.none, Option.some c, Option.none, eh, nf⟩
    ∧ (let selected := db.filter (fun m => m.conversation == c)
       let ordered := if nf then selected.reverse else selected
       let postFiltered :=
         if eh then ordered.filter (fun m => m.hidden == false) else ordered
       Messages.listMessages rank db ⟨Option.some a, Option.some c, Option.none, eh, nf⟩
         = postFiltered.take 10) := by
  refine ⟨rfl, rfl, ?_⟩
  cases eh <;> cases nf <;> rfl

/-- Claim C2, counterexample: the claim fails in two ways. With
`bodyFilter` "hello" and `conversationFilter` "room1", a regular
`withIndex` call does occur during construction (its result is discarded,
but the call is made, so "no regular index selection call occurs" is
false). And a `bodyFilter` that is supplied as the empty string is falsy,
so with `authorFilter` also supplied the text-search selection is not the
one applied. -/
theorem claim2_counterexample :
    (Messages.listMessagesTrace
        ⟨Option.none, Option.some "room1", Option.some "hello", false, false⟩).contains
        (BuilderCall.withIndex "by_conversation") = true
    ∧ Messages.listMessagesOrdered
        ⟨Option.some "ann", Option.none, Option.some "", false, false⟩
        = OrdQuery.default (IdxQuery.withIndex (MessagesIndex.by_author "ann")) := by
  exact ⟨by decide, by decide⟩

/-- Claim C2, amended: whenever `bodyFilter` is supplied as a non-empty
string, the text-search selection on `by_body` is the one applied to the
materialized query, the final handle contains no `withIndex` operation, and
the results are independent of `authorFilter` and `conversationFilter`
(the regular filters are ignored); a discarded `withIndex` call may still
occur during construction. -/
theorem claim2_amended (af cf : Option String) (b : String) (eh nf : Bool)
    (db : List Message) (rank : String → String → Option Nat) (hb : b ≠ "") :
    (Messages.listMessagesOrdered ⟨af, cf, Option.some b, eh, nf⟩).core
        = OrdQuery.search (MessagesSearch.by_body b)
    ∧ (Messages.listMessagesOrdered ⟨af, cf, Option.some b, eh, nf⟩).withIndexOps = 0
    ∧ Messages.listMessages rank db ⟨af, cf, Option.some b, eh, nf⟩
        = Messages.listMessages rank db ⟨Option.none, Option.none, Option.some b, eh, nf⟩ := by
  have hb2 : (b == "") = false := by simpa using hb
  refine ⟨?_, ?_, ?_⟩ <;>
    cases eh <;>
      simp [Messages.listMessagesOrdered, Messages.listMessagesIndexed,
        Messages.listMessages, Messages.candidates, OrdQuery.core,
        OrdQuery.withIndexOps, hb2]

/-- Claim C2, witness for the amended statement at a concrete input. -/
theorem claim2_amended_witness :
    ("hello" : String) ≠ ""
    ∧ ((Messages.listMessagesOrdered
          ⟨Option.some "a", Option.some "r", Option.some "hello", false, false⟩).core
          = OrdQuery.search (MessagesSearch.by_body "hello")
       ∧ (Messages.listMessagesOrdered
          ⟨Option.some "a", Option.some "r", Option.some "hello", false, false⟩).withIndexOps = 0
       ∧ Messages.listMessages rankNone []
          ⟨Option.some "a", Option.some "r", Option.some "hello", false, false⟩
          = Messages.listMessages rankNone []
             ⟨Option.none, Option.none, Option.some "hello", false, false⟩) :=
  ⟨by decide,
   claim2_amended (Option.some "a") (Option.some "r") "hello" false false []
     rankNone (by decide)⟩

/-- Claim C4: applying the post-filter (`excludeHidden` in `listMessages`,
`onlyActive` in either `listUsers` variant) never changes which index or
order selection composes the final handle (the filter-stripped handles are
equal), and the candidate sequence with the post-filter is exactly the
filtered candidate sequence without it, hence an order-preserving
subsequence of it. -/
theorem claim4_postfilter_frame (af cf bf : Option String) (nf : Bool)
    (rank : String → String → Option Nat) (db : List Message)
    (un ut : Option String) (ud : Bool)
    (urank : String → String → Option Nat) (udb : List User) :
    ((Messages.listMessagesOrdered ⟨af, cf, bf, true, nf⟩).core
        = (Messages.listMessagesOrdered ⟨af, cf, bf, false, nf⟩).core
      ∧ Messages.candidates rank db ⟨af, cf, bf, true, nf⟩
        = (Messages.candidates rank db ⟨af, cf, bf, false, nf⟩).filter
            (fun m => m.hidden == false)
      ∧ List.Sublist (Messages.candidates rank db ⟨af, cf, bf, true, nf⟩)
          (Messages.candidates rank db ⟨af, cf, bf, false, nf⟩))
    ∧ ((Users.listUsersOrdered ⟨un, ut, true, ud⟩).core
        = (Users.listUsersOrdered ⟨un, ut, false, ud⟩).core
      ∧ Users.candidates urank udb ⟨un, ut, true, ud⟩
        = (Users.candidates urank udb ⟨un, ut, false, ud⟩).filter
            (fun u => u.status == UserStatus.active)
      ∧ List.Sublist (Users.candidates urank udb ⟨un, ut, true, ud⟩)
          (Users.candidates urank udb ⟨un, ut, false, ud⟩))
    ∧ ((Part001.listUsersOrdered ⟨un, ut, true, ud⟩).core
        = (Part001.listUsersOrdered ⟨un, ut, false, ud⟩).core
      ∧ Part001.candidates udb ⟨un, ut, true, ud⟩
        = (Part001.candidates udb ⟨un, ut, false, ud⟩).filter
            (fun u => u.status == UserStatus.active)
      ∧ List.Sublist (Part001.candidates udb ⟨un, ut, true, ud⟩)
          (Part001.candidates udb ⟨un, ut, false, ud⟩)) := by
  refine ⟨⟨rfl, rfl, List.filter_sublist _⟩, ⟨rfl, rfl, List.filter_sublist _⟩,
    ?_, ?_, ?_⟩
  · cases ud <;> rfl
  · cases ud
    · rfl
    · exact (List.filter_reverse _ _).symm
  · have h : Part001.candidates udb ⟨un, ut, true, ud⟩
        = (Part001.candidates udb ⟨un, ut, false, ud⟩).filter
            (fun u => u.status == UserStatus.active) := by
      cases ud
      · rfl
      · exact (List.filter_reverse _ _).symm
    rw [h]
    exact List.filter_sublist _

/-- Claim C6, code evaluation at the failing input: with `name` "alice" and
no token, the users.ts `listUsers` materializes a `withSearchIndex` handle
on "by_name" — an index the users schema declares as a regular index and
not as a search index (so the handle fails schema validation) — and under a
possible platform ranking it returns a user whose name is not "alice";
the part_001 variant performs the exact lookup the claim describes and
returns no such user. -/
theorem claim6_code_at_failing_input :
    Users.listUsersOrdered ⟨Option.some "alice", Option.none, false, false⟩
        = OrdQuery.search (UsersSearch.by_name "alice")
    ∧ (Users.listUsersOrdered ⟨Option.some "alice", Option.none, false, false⟩).wf
        usersSchema UsersIndex.iname UsersSearch.sname = false
    ∧ usersSchema.searchIndexes = []
    ∧ Users.listUsers rankAlice [aliceSmith]
        ⟨Option.some "alice", Option.none, false, false⟩ = [aliceSmith]
    ∧ aliceSmith.name ≠ "alice"
    ∧ Part001.listUsersOrdered ⟨Option.some "alice", Option.none, false, false⟩
        = OrdQuery.default (IdxQuery.withIndex (UsersIndex.by_name "alice"))
    ∧ Part001.listUsers [aliceSmith]
        ⟨Option.some "alice", Option.none, false, false⟩ = [] := by
  decide

/-- Claim C7: the construction in `listMessages` is total over all argument
combinations — every index it can reference is declared, so the storage
collaborator's validation never rejects it and a healthy run returns a
result — and the handler adds no error handling of its own: a failure
raised by the storage collaborator reaches the caller unchanged. -/
theorem claim7_total_and_propagates (margs : ListMessagesArgs)
    (rank : String → String → Option Nat) (db : List Message) :
    Messages.listMessagesRun Option.none rank db margs
        = Except.ok (Messages.listMessages rank db margs)
    ∧ ∀ e : StorageError,
        Messages.listMessagesRun (Option.some e) rank db margs = Except.error e := by
  have hwf := listMessages_wf margs
  constructor
  · simp [Messages.listMessagesRun, runQuery, hwf, Messages.listMessages,
      Messages.candidates]
  · intro e
    simp [Messages.listMessagesRun, runQuery, hwf]

/-- Claim C8: inserting twice with identical field values, via
`createMessage` or `createUser`, stores two distinct records (distinct
system identities, identical fields, both appended to the table), and a
subsequent `listMessages` / `listUsers` call returns both, each
independently. -/
theorem claim8_duplicate_inserts (mtbl : MessagesTable) (a c b : String)
    (hid : Bool) (utbl : UsersTable) (n t : String) (s : UserStatus)
    (rank urank : String → String → Option Nat) :
    (let r1 : Message := ⟨mtbl.nextCreationTime, mtbl.nextCreationTime, a, c, b, hid⟩
     let r2 : Message := ⟨mtbl.nextCreationTime + 1, mtbl.nextCreationTime + 1, a, c, b, hid⟩
     r1.id ≠ r2.id
     ∧ (r1.author = r2.author ∧ r1.conversation = r2.conversation
        ∧ r1.body = r2.body ∧ r1.hidden = r2.hidden)
     ∧ (createMessage (createMessage mtbl a c b hid) a c b hid).docs
        = mtbl.docs ++ [r1, r2]
     ∧ Messages.listMessages rank
        (createMessage (createMessage mtbl a c b hid) a c b hid).docs
        ⟨Option.none, Option.none, Option.none, false, true⟩
        = r2 :: r1 :: mtbl.docs.reverse.take 8)
    ∧ (let u1 : User := ⟨utbl.nextCreationTime, utbl.nextCreationTime, n, t, s⟩
       let u2 : User := ⟨utbl.nextCreationTime + 1, utbl.nextCreationTime + 1, n, t, s⟩
       u1.id ≠ u2.id
       ∧ (u1.name = u2.name ∧ u1.tokenIdentifier = u2.tokenIdentifier
          ∧ u1.status = u2.status)
       ∧ (createUser (createUser utbl n t s) n t s).docs = utbl.docs ++ [u1, u2]
       ∧ Users.listUsers urank (createUser (createUser utbl n t s) n t s).docs
          ⟨Option.none, Option.none, false, true⟩
          = u2 :: u1 :: utbl.docs.reverse.take 8) := by
  refine ⟨⟨?_, ⟨rfl, rfl, rfl, rfl⟩, ?_, ?_⟩, ⟨?_, ⟨rfl, rfl, rfl⟩, ?_, ?_⟩⟩
  · exact Nat.ne_of_lt (Nat.lt_succ_self mtbl.nextCreationTime)
  · simp [createMessage, MessagesTable.insert]
  · simp [Messages.listMessages, Messages.candidates,
      Messages.listMessagesOrdered, Messages.listMessagesIndexed,
      evalOrd, evalIdx, createMessage, MessagesTable.insert,
      List.reverse_append]
  · exact Nat.ne_of_lt (Nat.lt_succ_self utbl.nextCreationTime)
  · simp [createUser, UsersTable.insert]
  · simp [Users.listUsers, Users.candidates, Users.listUsersOrdered,
      Users.listUsersIndexed, evalOrd, evalIdx, createUser, UsersTable.insert,
      List.reverse_append]
